import Mathlib

/-!
Shallow embedding of the spamc protocol engine (`spamc/client.py`):
request framing (`get_headers`, body-length computation), response
parsing (`get_response`), the retry orchestration of `SpamC.perform`,
and the TELL-command header construction of `SpamC.tell`.

Python strings are embedded as `List Char`; `dict` values become
association lists with in-place update (first occurrence wins the slot)
and delete, matching CPython dict key semantics for the keys used here.
Python floats never need arithmetic in this code (the parsed score is
only stored), so captured numeric values are kept as their literal
character sequences.

The regular expressions `RESPONSE_RE`, `SPAM_RE`, `PART_RE`, `RULE_RE`
and `SPACE_RE` live in `spamc/regex.py`, which is not part of the
sources at hand; they are modelled from the specification's grammar
descriptions (each such definition carries a `Modelled from the spec:`
doc comment).
-/

/-- Python strings are embedded as lists of characters. -/
abbrev Str := List Char

/-- The CRLF line terminator. -/
def crlf : Str := ['\r', '\n']

/-- `data.split('\r\n')` — split on the two-character separator, keeping
empty segments, as Python `str.split` with an explicit separator does. -/
def splitCRLF : Str → List Str
  | [] => [[]]
  | '\r' :: '\n' :: rest => [] :: splitCRLF rest
  | c :: rest =>
    match splitCRLF rest with
    | [] => [[c]]
    | l :: ls => (c :: l) :: ls

/-- `s.split(sep)` for a one-character separator, keeping empty segments. -/
def splitChar (sep : Char) : Str → List Str
  | [] => [[]]
  | c :: rest =>
    if c = sep then [] :: splitChar sep rest
    else
      match splitChar sep rest with
      | [] => [[c]]
      | l :: ls => (c :: l) :: ls

/-- The characters Python `str.strip()` and `\s` treat as whitespace. -/
def isSpaceChar (c : Char) : Bool :=
  c = ' ' || c = '\t' || c = '\n' || c = '\r' || c = '\x0b' || c = '\x0c'

/-- `not line.strip()` — true when the line is empty or all whitespace. -/
def isBlank (l : Str) : Bool := l.all isSpaceChar

/-- Python `str.strip()`. -/
def stripStr (l : Str) : Str :=
  ((l.dropWhile isSpaceChar).reverse.dropWhile isSpaceChar).reverse

/-- Python `str.lower()`. -/
def toLowerStr (l : Str) : Str := l.map Char.toLower

/-- Python `str.upper()`. -/
def toUpperStr (l : Str) : Str := l.map Char.toUpper

/-- `int(s)` on a string of decimal digits. -/
def natOfDigits (l : Str) : Nat :=
  l.foldl (fun n c => 10 * n + (c.toNat - 48)) 0

/-- `str(n)` for a natural number. -/
def natToStr (n : Nat) : Str := Nat.toDigits 10 n

/-- `sep.join(parts)`. -/
def joinSep (sep : Str) (parts : List Str) : Str := List.intercalate sep parts

/-- Split at the first occurrence of a (nonempty) separator sequence,
returning the parts before and after it, or `none` if it never occurs. -/
def splitFirstSeq (sep : Str) : Str → Option (Str × Str)
  | [] => none
  | c :: rest =>
    if sep.isPrefixOf (c :: rest) then some ([], (c :: rest).drop sep.length)
    else
      match splitFirstSeq sep rest with
      | some (a, b) => some (c :: a, b)
      | none => none

/-! ## Models of the regular expressions from `spamc/regex.py`

`spamc/regex.py` is not among the sources at hand; the following
definitions are modelled from the specification's descriptions of the
patterns. -/

/-- Modelled from the spec: the status-line grammar matched by
`RESPONSE_RE`: `"<PROTOCOL>/<VERSION> <code> <message>"`, where the
protocol is a nonempty run of upper-case letters, the version is
`<digits>.<digits>`, the code is a nonempty digit run, and the
(nonempty) message is the rest of the line.  On a match, yields the
numeric code and the message text. -/
def matchResponseLine (l : Str) : Option (Nat × Str) :=
  match splitChar ' ' l with
  | w0 :: w1 :: rest =>
    let protoOk :=
      match splitChar '/' w0 with
      | [p, v] =>
        (!p.isEmpty) && p.all Char.isUpper &&
          (match splitChar '.' v with
           | [a, b] => (!a.isEmpty) && (!b.isEmpty) && a.all Char.isDigit && b.all Char.isDigit
           | _ => false)
      | _ => false
    if protoOk && (!w1.isEmpty) && w1.all Char.isDigit && (!rest.isEmpty) then
      some (natOfDigits w1, joinSep [' '] rest)
    else none
  | _ => none

/-- A numeric capture: optional leading minus, then digits and at most
dots, nonempty. -/
def numTokenOk (s : Str) : Bool :=
  let body := if s.head? = some '-' then s.drop 1 else s
  (!body.isEmpty) && body.all (fun c => c.isDigit || c = '.')

/-- Modelled from the spec: the spam-status pattern `SPAM_RE`:
`"Spam: <True|False|Yes|No> ; <score> / <threshold>"`.  On a match,
yields the verdict token and the two captured numeric strings. -/
def matchSpamLine (l : Str) : Option (Str × Str × Str) :=
  if ("Spam: ".toList).isPrefixOf l then
    let rest := l.drop 6
    match splitFirstSeq (" ; ".toList) rest with
    | some (tok, rest2) =>
      if tok = "True".toList || tok = "False".toList ||
         tok = "Yes".toList || tok = "No".toList then
        match splitFirstSeq (" / ".toList) rest2 with
        | some (sc, bs) =>
          if numTokenOk sc && numTokenOk bs then some (tok, sc, bs) else none
        | none => none
      else none
    | none => none
  else none

/-- A character that can occur in a rule-name token. -/
def isRuleChar (c : Char) : Bool := c.isUpper || c.isDigit || c = '_'

/-- Accumulator-passing scan for maximal nonempty runs of rule-name
characters; `cur` holds the current run reversed. -/
def partFindallAux (cur : Str) : Str → List Str
  | [] => if cur.isEmpty then [] else [cur.reverse]
  | c :: rest =>
    if isRuleChar c then partFindallAux (c :: cur) rest
    else if cur.isEmpty then partFindallAux [] rest
    else cur.reverse :: partFindallAux [] rest

/-- Modelled from the spec: `PART_RE.findall` — scans a symbol line for
comma/structure-separated rule-name tokens; modelled as the maximal
nonempty runs of upper-case letters, digits and underscores. -/
def partFindall (l : Str) : List Str := partFindallAux [] l

/-- The whitespace-separated words of a line. -/
def wordsOf (l : Str) : List Str :=
  ((splitChar ' ' l).map (fun w => w.filter (fun c => !isSpaceChar c))).filter
    (fun w => !w.isEmpty)

/-- Modelled from the spec: `RULE_RE.findall` — a rule-report line
carries a signed score (captured as sign and magnitude), a rule-name
token and a free-text description.  Modelled as: first word an optional
minus sign followed by a nonempty run of digits and dots, second word
the rule name, remaining words the description (one capture per line;
the code collapses whitespace runs in the description afterwards, so
re-joining the words with single spaces loses nothing). -/
def ruleFindall (l : Str) : List (Str × Str × Str × Str) :=
  match wordsOf l with
  | w0 :: w1 :: rest =>
    let sign : Str := if w0.head? = some '-' then ['-'] else []
    let mag : Str := if w0.head? = some '-' then w0.drop 1 else w0
    if (!mag.isEmpty) && mag.all (fun c => c.isDigit || c = '.') && (!rest.isEmpty) then
      [(sign, mag, w1, joinSep [' '] rest)]
    else []
  | _ => []

/-- Modelled from the spec: `SPACE_RE.sub(" ", s)` — collapse each
maximal whitespace run to a single space. -/
def collapseSpaces : Str → Str
  | [] => []
  | c :: rest =>
    if isSpaceChar c then
      match rest with
      | [] => [' ']
      | c' :: _ => if isSpaceChar c' then collapseSpaces rest else ' ' :: collapseSpaces rest
    else c :: collapseSpaces rest

/-! ## The parsed response (`resp_dict` in `get_response`) -/

/-- One entry of the rule report: `dict(score=..., name=..., description=...)`. -/
structure ReportEntry where
  score : Str
  name : Str
  description : Str
  deriving Repr, DecidableEq

/-- The response dictionary built by `get_response`.  The Python code
uses a `dict`; the keys `didset`/`didremove` exist only when they have
been assigned, which is modelled by `Option Bool` (`none` = key absent).
The same dict key `message` holds the status message and, for PROCESS,
is overwritten with the reconstructed body. -/
structure RespDict where
  code : Nat
  message : Str
  isspam : Bool
  score : Str
  basescore : Str
  report : List ReportEntry
  symbols : List Str
  headers : List (Str × Str)
  didset : Option Bool
  didremove : Option Bool
  deriving Repr, DecidableEq

/-- The initial `resp_dict` (with `didset`/`didremove` present only for
`TELL`, per lines 72–74 of `client.py`). -/
def initDict (cmd : Str) : RespDict :=
  { code := 0
    message := []
    isspam := false
    score := "0.0".toList
    basescore := "0.0".toList
    report := []
    symbols := []
    headers := []
    didset := if cmd = "TELL".toList then some false else none
    didremove := if cmd = "TELL".toList then some false else none }

/-- Turn one `RULE_RE` capture into a report entry:
`score = (sign + magnitude).strip()`, whitespace runs in the
description collapsed (`SPACE_RE.sub(" ", ...)`). -/
def mkEntry (part : Str × Str × Str × Str) : ReportEntry :=
  { score := stripStr (part.1 ++ part.2.1)
    name := part.2.2.1
    description := collapseSpaces part.2.2.2 }

/-- Modelled from the spec: the `email.parser.Parser`
(`headersonly=True`) pass used for HEADERS — the joined tail lines are
parsed as `"Key: value"` header fields and poured into the headers
mapping, last value winning on duplicate names.  Folding/continuation
lines are not modelled (no claim depends on them). -/
def parseHeaderBlock (block : Str) : List (Str × Str) :=
  (splitCRLF block).foldl
    (fun acc l =>
      match splitFirstSeq [':'] l with
      | some (k, v) =>
        if k.isEmpty then acc
        else
          match acc.lookup k with
          | some _ => acc.map (fun kv => if kv.1 = k then (k, stripStr v) else kv)
          | none => acc ++ [(k, stripStr v)]
      | none => acc)
    []

/-- Whether a line reaches the rule-report branch of the loop and
yields captures there: the line is not blank (blank lines `continue`),
`SPAM_RE` did not match, for SYMBOLS `PART_RE.findall` found no
rule-name tokens (its nonempty result occupies the `match` variable of
line 99 and so suppresses the branch), the command is not PROCESS, and
`RULE_RE.findall` is nonempty. -/
def ruleFires (cmd l : Str) : Bool :=
  !isBlank l && (matchSpamLine l).isNone &&
    (if cmd = "SYMBOLS".toList then (partFindall l).isEmpty else true) &&
    decide (cmd ≠ "PROCESS".toList) && !(ruleFindall l).isEmpty

/-- Process one response line past the status line (the body of the
`for` loop in `get_response`, lines 86–116 of `client.py`), expressed
as the per-key effect of one iteration on the response dict and on the
raw-symbols list: blank lines are skipped (`continue`); a spam-status
match overwrites `isspam`/`score`/`basescore`; otherwise, for SYMBOLS,
the line is retained for the raw-symbols list (unless it starts with
`content-length:`, case-insensitively) and its rule-name tokens are
appended to `symbols`; a line that reaches the rule branch with
captures (`ruleFires`) *replaces* the accumulated `report` with its own
entries; finally a `DidSet:`/`DidRemove:` prefix sets the respective
flag, whatever the command. -/
def stepLine (cmd : Str) (acc : RespDict × List Str) (line : Str) : RespDict × List Str :=
  if isBlank line then acc
  else
    ⟨{ acc.1 with
        isspam :=
          match matchSpamLine line with
          | some (tok, _, _) => tok = "True".toList || tok = "Yes".toList
          | none => acc.1.isspam
        score :=
          match matchSpamLine line with
          | some (_, sc, _) => sc
          | none => acc.1.score
        basescore :=
          match matchSpamLine line with
          | some (_, _, bs) => bs
          | none => acc.1.basescore
        symbols :=
          if (matchSpamLine line).isNone && decide (cmd = "SYMBOLS".toList) then
            acc.1.symbols ++ partFindall line
          else acc.1.symbols
        report :=
          if ruleFires cmd line then (ruleFindall line).map mkEntry
          else acc.1.report
        didset :=
          if ("DidSet:".toList).isPrefixOf line then some true else acc.1.didset
        didremove :=
          if ("DidRemove:".toList).isPrefixOf line then some true else acc.1.didremove },
      if (matchSpamLine line).isNone && decide (cmd = "SYMBOLS".toList) &&
          !(("content-length:".toList).isPrefixOf (toLowerStr line)) then
        acc.2 ++ [line]
      else acc.2⟩

/-- The per-command post-processing at the end of `get_response`
(lines 117–125 of `client.py`): for SYMBOLS in raw mode, `symbols` is
replaced by the single newline-joined retained raw list; for PROCESS,
the `message` key is overwritten with all lines from index 4 on joined
with no separator plus a trailing CRLF; for HEADERS, the lines from
index 4 on are rejoined with CRLF and parsed as a mail-header block. -/
def postProcess (cmd : Str) (raw_symbols : Bool) (lines : List Str)
    (d1 : RespDict) (rawL : List Str) : RespDict :=
  let d2 :=
    if cmd = "SYMBOLS".toList && raw_symbols then
      { d1 with symbols := [joinSep ['\n'] rawL] }
    else d1
  let d3 :=
    if cmd = "PROCESS".toList then
      { d2 with message := joinSep [] (lines.drop 4) ++ crlf }
    else d2
  if cmd = "HEADERS".toList then
    { d3 with headers := parseHeaderBlock (joinSep crlf (lines.drop 4)) }
  else d3

/-- `get_response(cmd, conn, raw_symbols)` of `client.py`, as a function
of the raw bytes read from the connection.  Parsing fails (the Python
code raises `SpamCResponseError`) exactly when the first CRLF-separated
line does not match the status-line grammar; otherwise the remaining
lines are folded through `stepLine` and the per-command post-processing
is applied. -/
def get_response (cmd : Str) (data : Str) (raw_symbols : Bool) : Except Str RespDict :=
  let lines := splitCRLF data
  match matchResponseLine (lines.headD []) with
  | none => .error ("spamd unrecognized response: ".toList ++ data)
  | some (c, m) =>
    let d0 := { initDict cmd with code := c, message := m }
    let folded := (lines.drop 1).foldl (stepLine cmd) (d0, [])
    .ok (postProcess cmd raw_symbols lines folded.1 folded.2)

/-! ## Request side: body length, header block (`SpamC.get_headers`),
in-memory send path of `SpamC.perform` -/

/-- The duck-typed `msg` parameter of `SpamC.perform`, as the tagged
union the three branches of lines 205–219 distinguish:
`mem` — an in-memory byte string; `fileStream` — an object with both
`read` and `fileno` (length taken as `os.fstat(msg.fileno()).st_size`);
`readStream` — an object with `read` only (length taken as
`msg.seek(0, 2); msg.tell()`). -/
inductive Msg where
  | mem (payload : Str)
  | fileStream (fstatSize : Nat)
  | readStream (tellSize : Nat)
  deriving Repr, DecidableEq

/-- The `msg_length` computation of `SpamC.perform`
(lines 205–219 of `client.py`): `fstat` size as is for a `read`+`fileno`
source, `tell() + 2` for a `read`-only source, `len(msg) + 2` for a
nonempty in-memory string and the constant `2` for an empty one. -/
def msg_length : Msg → Nat
  | .fileStream n => n
  | .readStream n => n + 2
  | .mem p => if !p.isEmpty then p.length + 2 else 2

/-- The client configuration fields `get_headers` and the in-memory send
path consult. -/
structure ClientCfg where
  user : Option Str
  gzip : Bool
  compress_level : Nat
  deriving Repr, DecidableEq

/-- The header lines built by `SpamC.get_headers` (lines 179–195 of
`client.py`), before the final `'\r\n'.join`: command line,
`Content-length`, optional `User`, optional `Compress: zlib`, the extra
headers whose key is not `content-length` (case-insensitively), and two
empty lines. -/
def headerLines (cfg : ClientCfg) (cmd : Str) (msgLen : Str)
    (extra : List (Str × Str)) : List Str :=
  [cmd ++ " SPAMC/1.5".toList, "Content-length: ".toList ++ msgLen]
    ++ (match cfg.user with
        | some u => ["User: ".toList ++ u]
        | none => [])
    ++ (if cfg.gzip then ["Compress: zlib".toList] else [])
    ++ ((extra.filter (fun kv => toLowerStr kv.1 ≠ "content-length".toList)).map
          (fun kv => kv.1 ++ ": ".toList ++ kv.2))
    ++ [[], []]

/-- `SpamC.get_headers` — the joined header block. -/
def get_headers (cfg : ClientCfg) (cmd : Str) (msgLen : Str)
    (extra : List (Str × Str)) : Str :=
  joinSep crlf (headerLines cfg cmd msgLen extra)

/-- The body bytes sent on the in-memory path of `SpamC.perform`
(lines 223–228): with gzip enabled and a nonempty message the body is
`compress(msg + '\r\n', compress_level)`, otherwise `msg + '\r\n'`.
`zlib.compress` is outside the sources at hand, so the compressor is a
parameter. -/
def inMemoryBody (cfg : ClientCfg) (compressFn : Str → Str) (msg : Str) : Str :=
  if cfg.gzip && !msg.isEmpty then compressFn (msg ++ crlf) else msg ++ crlf

/-! ## The retry orchestration of `SpamC.perform` (lines 198–261)

The transport is external; one `while`-loop iteration of `perform` is
driven by the outcome of its connection attempt: a `socket.gaierror`, a
`socket.timeout`, a `socket.error` with an errno, some other exception,
or a successful exchange delivering the raw response bytes.  The model
records, in order, the `conn.close()` / `conn.release()` calls the code
makes, the number of loop iterations (connection attempts) consumed,
and the final result. -/

/-- The outcome of one connection attempt, as `perform` classifies it. -/
inductive AttemptOutcome where
  | gaierror (e : Str)
  | timeoutexc (e : Str)
  | sockerror (eno : Nat) (e : Str)
  | otherexc (e : Str)
  | recv (data : Str)
  deriving Repr, DecidableEq

/-- A connection-lifecycle call made by `perform`. -/
inductive ConnEvent where
  | close
  | release
  deriving Repr, DecidableEq

/-- What a `perform` call produces. -/
inductive PerformResult where
  | ok (r : RespDict)
  | clientError (e : Str)
  | timeoutError (e : Str)
  | responseError (e : Str)
  | reraised (e : Str)
  | outOfScript
  deriving Repr, DecidableEq

/-- The recoverable errno set of line 252:
`(errno.EAGAIN, errno.EPIPE, errno.EBADF, errno.ECONNRESET)`, with the
Linux values 11, 32, 9, 104. -/
def recoverableErrnos : List Nat := [11, 32, 9, 104]

/-- The `while 1` loop of `SpamC.perform`, with `tries` the retry
counter and the list the scripted outcome of each successive connection
attempt.  A `socket.gaierror` releases the connection and fails with
`SpamCError`; a `socket.timeout` releases and fails with
`SpamCTimeOutError`; a `socket.error` closes the connection and either
fails with `SpamCError` (errno not recoverable, or `tries >= max_tries`)
or increments `tries` and loops; any other exception — including the
`SpamCResponseError` a failed parse raises — releases the connection
and is re-raised; a successful exchange returns the parsed response
*without touching the connection*. -/
def performAux (cmd : Str) (raw_symbols : Bool) (max_tries : Nat) :
    Nat → List AttemptOutcome → List ConnEvent × Nat × PerformResult
  | _, [] => ([], 0, .outOfScript)
  | tries, o :: rest =>
    match o with
    | .gaierror e => ([.release], 1, .clientError e)
    | .timeoutexc e => ([.release], 1, .timeoutError e)
    | .otherexc e => ([.release], 1, .reraised e)
    | .sockerror eno e =>
      if !(recoverableErrnos.contains eno) || max_tries ≤ tries then
        ([.close], 1, .clientError ("socket.error: ".toList ++ e))
      else
        let next := performAux cmd raw_symbols max_tries (tries + 1) rest
        (.close :: next.1, next.2.1 + 1, next.2.2)
    | .recv data =>
      match get_response cmd data raw_symbols with
      | .error e => ([.release], 1, .responseError e)
      | .ok r => ([], 1, .ok r)

/-- `SpamC.perform` starts its loop with `tries = 0`. -/
def perform (cmd : Str) (raw_symbols : Bool) (max_tries : Nat)
    (script : List AttemptOutcome) : List ConnEvent × Nat × PerformResult :=
  performAux cmd raw_symbols max_tries 0 script

/-- Whether a result is the `SpamCError` raised from the
`socket.error` / retry-exhaustion path. -/
def PerformResult.isClient : PerformResult → Bool
  | .clientError _ => true
  | _ => false

/-- Whether a result is a successfully parsed response. -/
def PerformResult.isSuccess : PerformResult → Bool
  | .ok _ => true
  | _ => false

/-- Whether an attempt outcome is a `socket.error` carrying one of the
recoverable errnos. -/
def AttemptOutcome.isRecoverable : AttemptOutcome → Bool
  | .sockerror eno _ => recoverableErrnos.contains eno
  | _ => false

/-! ## TELL header construction (`SpamC.tell`, lines 301–330) -/

/-- Association-list update with CPython-dict semantics: replace the
value in place if the key is present, else append the pair. -/
def updAssoc (l : List (Str × Str)) (k v : Str) : List (Str × Str) :=
  match l with
  | [] => [(k, v)]
  | kv :: rest => if kv.1 = k then (k, v) :: rest else kv :: updAssoc rest k v

/-- Association-list delete (`del headers[k]`): remove the key's entry. -/
def delAssoc (l : List (Str × Str)) (k : Str) : List (Str × Str) :=
  match l with
  | [] => []
  | kv :: rest => if kv.1 = k then rest else kv :: delAssoc rest k

/-- `_check_action` of `client.py`: lower-case the action and reject
anything outside `learn`/`forget`/`report`/`revoke` with `SpamCError`. -/
def check_action (action : Str) : Except Str Str :=
  let a := toLowerStr action
  if a = "learn".toList || a = "forget".toList ||
     a = "report".toList || a = "revoke".toList then .ok a
  else .error "The action option is invalid".toList

/-- The extra-header construction of `SpamC.tell(msg, action, learnas)`
(lines 301–330): start from `{Message-class: '', Set: local}`, then per
action: `learn` sets `Message-class` from `learnas` (upper-cased; SPAM →
spam, HAM/NOTSPAM/NOT_SPAM → ham, anything else `SpamCError`); `forget`
deletes `Message-class` and `Set` and adds `Remove: local`; `report`
sets `Message-class: spam` and `Set: local, remote`; `revoke` sets
`Message-class: ham` and adds `Remove: remote`.  The result is what
`tell` passes to `perform('TELL', msg, headers)`. -/
def tell_headers (action learnas : Str) : Except Str (List (Str × Str)) :=
  match check_action action with
  | .error e => .error e
  | .ok act =>
    let mode := toUpperStr learnas
    let h : List (Str × Str) :=
      [("Message-class".toList, []), ("Set".toList, "local".toList)]
    if act = "learn".toList then
      if mode = "SPAM".toList then
        .ok (updAssoc h "Message-class".toList "spam".toList)
      else if mode = "HAM".toList || mode = "NOTSPAM".toList ||
              mode = "NOT_SPAM".toList then
        .ok (updAssoc h "Message-class".toList "ham".toList)
      else .error "The learnas option is invalid".toList
    else if act = "forget".toList then
      .ok (updAssoc (delAssoc (delAssoc h "Message-class".toList) "Set".toList)
            "Remove".toList "local".toList)
    else if act = "report".toList then
      .ok (updAssoc (updAssoc h "Message-class".toList "spam".toList)
            "Set".toList "local, remote".toList)
    else if act = "revoke".toList then
      .ok (updAssoc (updAssoc h "Message-class".toList "ham".toList)
            "Remove".toList "remote".toList)
    else .ok h

/-- `SpamC.revoke(msg)` delegates to `tell(msg, 'revoke')` with the
default `learnas=''`; these are the extra headers it sends. -/
def revoke_headers : Except Str (List (Str × Str)) :=
  tell_headers "revoke".toList []

/-! ## Line-level characterization of `stepLine` -/

/-- The spam-status capture a line contributes inside the loop: blank
lines are skipped before matching. -/
def extractSpam (l : Str) : Option (Str × Str × Str) :=
  if isBlank l then none else matchSpamLine l

/-- The capture of the *last* line carrying a spam-status match. -/
def lastSpam : List Str → Option (Str × Str × Str)
  | [] => none
  | l :: ls =>
    match lastSpam ls with
    | some x => some x
    | none => extractSpam l

/-- The report contributed by the *last* line that reaches the rule
branch with captures. -/
def lastRule (cmd : Str) : List Str → Option (List ReportEntry)
  | [] => none
  | l :: ls =>
    match lastRule cmd ls with
    | some x => some x
    | none => if ruleFires cmd l then some ((ruleFindall l).map mkEntry) else none

/-- Whether some line of the list starts with the given prefix. -/
def anyPrefix (p : Str) (ls : List Str) : Bool :=
  ls.any (fun l => p.isPrefixOf l)

/-- Whether an `Except` value carries a result. -/
def exceptOk : Except Str RespDict → Bool
  | .ok _ => true
  | .error _ => false

/-- Observe one field of a parsed response, `none` when parsing failed. -/
def respField {α : Type} (f : RespDict → α) : Except Str RespDict → Option α
  | .ok r => some (f r)
  | .error _ => none

theorem prefixHead_not_blank (c : Char) (p l : Str) (hp : p.head? = some c)
    (hc : isSpaceChar c = false) (h : p.isPrefixOf l = true) : isBlank l = false := by
  cases p with
  | nil => simp at hp
  | cons a as =>
    cases l with
    | nil => simp [List.isPrefixOf] at h
    | cons b bs =>
      simp only [List.head?, Option.some.injEq] at hp
      simp only [List.isPrefixOf, Bool.and_eq_true, beq_iff_eq] at h
      obtain ⟨h1, _⟩ := h
      subst hp
      subst h1
      simp [isBlank, hc]

theorem stepLine_code (cmd : Str) (acc : RespDict × List Str) (l : Str) :
    ((stepLine cmd acc l).1).code = acc.1.code := by
  unfold stepLine
  split <;> rfl

theorem stepLine_message (cmd : Str) (acc : RespDict × List Str) (l : Str) :
    ((stepLine cmd acc l).1).message = acc.1.message := by
  unfold stepLine
  split <;> rfl

theorem stepLine_spam (cmd : Str) (acc : RespDict × List Str) (l : Str) :
    (((stepLine cmd acc l).1).isspam, ((stepLine cmd acc l).1).score,
        ((stepLine cmd acc l).1).basescore) =
      match extractSpam l with
      | some (t, s, b) => ((t = "True".toList || t = "Yes".toList : Bool), s, b)
      | none => (acc.1.isspam, acc.1.score, acc.1.basescore) := by
  unfold stepLine extractSpam
  by_cases hb : isBlank l
  · simp [hb]
  · simp only [hb, Bool.false_eq_true, if_false]
    cases hm : matchSpamLine l with
    | some x => obtain ⟨t, s, b⟩ := x; simp [hm]
    | none => simp [hm]

theorem stepLine_report (cmd : Str) (acc : RespDict × List Str) (l : Str) :
    ((stepLine cmd acc l).1).report =
      if ruleFires cmd l then (ruleFindall l).map mkEntry else acc.1.report := by
  unfold stepLine
  by_cases hb : isBlank l
  · simp [hb, ruleFires]
  · simp [hb]

theorem stepLine_didset (cmd : Str) (acc : RespDict × List Str) (l : Str) :
    ((stepLine cmd acc l).1).didset =
      if ("DidSet:".toList).isPrefixOf l then some true else acc.1.didset := by
  unfold stepLine
  by_cases hb : isBlank l
  · by_cases hp : ("DidSet:".toList).isPrefixOf l
    · exact absurd (prefixHead_not_blank 'D' _ _ (by decide) (by decide) hp)
        (by simp [hb])
    · have hp2 : ¬ (['D', 'i', 'd', 'S', 'e', 't', ':'] <+: l) := by simpa using hp
      simp [hb, hp2]
  · simp [hb]

theorem stepLine_didremove (cmd : Str) (acc : RespDict × List Str) (l : Str) :
    ((stepLine cmd acc l).1).didremove =
      if ("DidRemove:".toList).isPrefixOf l then some true else acc.1.didremove := by
  unfold stepLine
  by_cases hb : isBlank l
  · by_cases hp : ("DidRemove:".toList).isPrefixOf l
    · exact absurd (prefixHead_not_blank 'D' _ _ (by decide) (by decide) hp)
        (by simp [hb])
    · have hp2 : ¬ (['D', 'i', 'd', 'R', 'e', 'm', 'o', 'v', 'e', ':'] <+: l) := by
        simpa using hp
      simp [hb, hp2]
  · simp [hb]

/-! ## Fold-level characterization of the line loop -/

theorem foldl_code (cmd : Str) (ls : List Str) (acc : RespDict × List Str) :
    ((ls.foldl (stepLine cmd) acc).1).code = acc.1.code := by
  induction ls generalizing acc with
  | nil => rfl
  | cons l ls ih => rw [List.foldl_cons, ih, stepLine_code]

theorem foldl_spam (cmd : Str) (ls : List Str) (acc : RespDict × List Str) :
    (((ls.foldl (stepLine cmd) acc).1).isspam, ((ls.foldl (stepLine cmd) acc).1).score,
        ((ls.foldl (stepLine cmd) acc).1).basescore) =
      match lastSpam ls with
      | some (t, s, b) => ((t = "True".toList || t = "Yes".toList : Bool), s, b)
      | none => (acc.1.isspam, acc.1.score, acc.1.basescore) := by
  induction ls generalizing acc with
  | nil => rfl
  | cons l ls ih =>
    rw [List.foldl_cons, ih]
    cases hls : lastSpam ls with
    | some x => simp [lastSpam, hls]
    | none =>
      simp only [lastSpam, hls]
      rw [stepLine_spam]

theorem foldl_report (cmd : Str) (ls : List Str) (acc : RespDict × List Str) :
    ((ls.foldl (stepLine cmd) acc).1).report =
      match lastRule cmd ls with
      | some es => es
      | none => acc.1.report := by
  induction ls generalizing acc with
  | nil => rfl
  | cons l ls ih =>
    rw [List.foldl_cons, ih]
    cases hls : lastRule cmd ls with
    | some x => simp [lastRule, hls]
    | none =>
      simp only [lastRule, hls]
      rw [stepLine_report]
      by_cases hf : ruleFires cmd l
      · simp [hf]
      · simp [hf]

theorem foldl_didset (cmd : Str) (ls : List Str) (acc : RespDict × List Str) :
    ((ls.foldl (stepLine cmd) acc).1).didset =
      if anyPrefix "DidSet:".toList ls then some true else acc.1.didset := by
  induction ls generalizing acc with
  | nil => rfl
  | cons l ls ih =>
    rw [List.foldl_cons, ih]
    by_cases hls : anyPrefix "DidSet:".toList ls
    · simp [anyPrefix, List.any_cons, hls ,stepLine_didset]
      simp [anyPrefix] at hls
      simp [hls]
    · simp only [hls, Bool.false_eq_true, if_false]
      rw [stepLine_didset]
      by_cases hp : ("DidSet:".toList).isPrefixOf l
      · have hp2 : ['D', 'i', 'd', 'S', 'e', 't', ':'] <+: l := by simpa using hp
        simp [anyPrefix, List.any_cons, hp2]
      · have hp2 : ¬ (['D', 'i', 'd', 'S', 'e', 't', ':'] <+: l) := by simpa using hp
        have hls2 : ¬ ∃ x ∈ ls, ['D', 'i', 'd', 'S', 'e', 't', ':'] <+: x := by
          simpa [anyPrefix] using hls
        simp [anyPrefix, List.any_cons, hp2, hls2]

theorem foldl_didremove (cmd : Str) (ls : List Str) (acc : RespDict × List Str) :
    ((ls.foldl (stepLine cmd) acc).1).didremove =
      if anyPrefix "DidRemove:".toList ls then some true else acc.1.didremove := by
  induction ls generalizing acc with
  | nil => rfl
  | cons l ls ih =>
    rw [List.foldl_cons, ih]
    by_cases hls : anyPrefix "DidRemove:".toList ls
    · simp [anyPrefix, List.any_cons, hls, stepLine_didremove]
      simp [anyPrefix] at hls
      simp [hls]
    · simp only [hls, Bool.false_eq_true, if_false]
      rw [stepLine_didremove]
      by_cases hp : ("DidRemove:".toList).isPrefixOf l
      · have hp2 : ['D', 'i', 'd', 'R', 'e', 'm', 'o', 'v', 'e', ':'] <+: l := by simpa using hp
        simp [anyPrefix, List.any_cons, hp2]
      · have hp2 : ¬ (['D', 'i', 'd', 'R', 'e', 'm', 'o', 'v', 'e', ':'] <+: l) := by
          simpa using hp
        have hls2 : ¬ ∃ x ∈ ls, ['D', 'i', 'd', 'R', 'e', 'm', 'o', 'v', 'e', ':'] <+: x := by
          simpa [anyPrefix] using hls
        simp [anyPrefix, List.any_cons, hp2, hls2]

/-! ## Characterization of `get_response` -/

theorem postProcess_code (cmd : Str) (raw_symbols : Bool) (lines : List Str)
    (d1 : RespDict) (rawL : List Str) :
    (postProcess cmd raw_symbols lines d1 rawL).code = d1.code := by
  unfold postProcess
  split <;> split <;> split <;> rfl

theorem postProcess_spam (cmd : Str) (raw_symbols : Bool) (lines : List Str)
    (d1 : RespDict) (rawL : List Str) :
    ((postProcess cmd raw_symbols lines d1 rawL).isspam,
        (postProcess cmd raw_symbols lines d1 rawL).score,
        (postProcess cmd raw_symbols lines d1 rawL).basescore) =
      (d1.isspam, d1.score, d1.basescore) := by
  unfold postProcess
  split <;> split <;> split <;> rfl

theorem postProcess_report (cmd : Str) (raw_symbols : Bool) (lines : List Str)
    (d1 : RespDict) (rawL : List Str) :
    (postProcess cmd raw_symbols lines d1 rawL).report = d1.report := by
  unfold postProcess
  split <;> split <;> split <;> rfl

theorem postProcess_didset (cmd : Str) (raw_symbols : Bool) (lines : List Str)
    (d1 : RespDict) (rawL : List Str) :
    (postProcess cmd raw_symbols lines d1 rawL).didset = d1.didset := by
  unfold postProcess
  split <;> split <;> split <;> rfl

theorem postProcess_didremove (cmd : Str) (raw_symbols : Bool) (lines : List Str)
    (d1 : RespDict) (rawL : List Str) :
    (postProcess cmd raw_symbols lines d1 rawL).didremove = d1.didremove := by
  unfold postProcess
  split <;> split <;> split <;> rfl

theorem get_response_error_iff (cmd data : Str) (raw : Bool) :
    exceptOk (get_response cmd data raw) = false ↔
      matchResponseLine ((splitCRLF data).headD []) = none := by
  unfold get_response
  dsimp only
  cases hm : matchResponseLine ((splitCRLF data).headD []) with
  | none => simp [exceptOk]
  | some x => obtain ⟨c, m⟩ := x; simp [exceptOk, hm]

theorem get_response_fields (cmd data : Str) (raw : Bool) (c : Nat) (m : Str)
    (h : matchResponseLine ((splitCRLF data).headD []) = some (c, m)) :
    ∃ r, get_response cmd data raw = .ok r ∧
      r.code = c ∧
      (r.isspam, r.score, r.basescore) =
        (match lastSpam ((splitCRLF data).drop 1) with
         | some (t, s, b) => ((t = "True".toList || t = "Yes".toList : Bool), s, b)
         | none => (false, "0.0".toList, "0.0".toList)) ∧
      r.report =
        (match lastRule cmd ((splitCRLF data).drop 1) with
         | some es => es
         | none => []) ∧
      r.didset =
        (if anyPrefix "DidSet:".toList ((splitCRLF data).drop 1) then some true
         else if cmd = "TELL".toList then some false else none) ∧
      r.didremove =
        (if anyPrefix "DidRemove:".toList ((splitCRLF data).drop 1) then some true
         else if cmd = "TELL".toList then some false else none) := by
  unfold get_response
  dsimp only
  rw [h]
  refine ⟨_, rfl, ?_, ?_, ?_, ?_, ?_⟩
  · rw [postProcess_code, foldl_code]
  · rw [postProcess_spam, foldl_spam]
    cases hls : lastSpam ((splitCRLF data).drop 1) with
    | some x => rfl
    | none => simp [initDict]
  · rw [postProcess_report, foldl_report]
    cases hlr : lastRule cmd ((splitCRLF data).drop 1) with
    | some x => rfl
    | none => simp [initDict]
  · rw [postProcess_didset, foldl_didset]
    split
    · rfl
    · simp [initDict]
  · rw [postProcess_didremove, foldl_didremove]
    split
    · rfl
    · simp [initDict]

theorem get_response_ok_match (cmd data : Str) (raw : Bool)
    (hok : exceptOk (get_response cmd data raw) = true) :
    ∃ c m, matchResponseLine ((splitCRLF data).headD []) = some (c, m) := by
  cases hx : matchResponseLine ((splitCRLF data).headD []) with
  | none =>
    have := (get_response_error_iff cmd data raw).mpr hx
    rw [this] at hok
    exact absurd hok (by simp)
  | some x => exact ⟨x.1, x.2, rfl⟩

/-! ## Characterization of the retry loop -/

theorem performAux_attempts_le (cmd : Str) (raw : Bool) (m : Nat)
    (script : List AttemptOutcome) :
    ∀ t : Nat, (performAux cmd raw m t script).2.1 ≤ m - t + 1 := by
  induction script with
  | nil => intro t; simp [performAux]
  | cons o rest ih =>
    intro t
    cases o with
    | gaierror e => simp [performAux]
    | timeoutexc e => simp [performAux]
    | otherexc e => simp [performAux]
    | recv data =>
      simp only [performAux]
      cases hg : get_response cmd data raw <;> simp
    | sockerror eno e =>
      simp only [performAux]
      split
      · simp
      · rename_i hcond
        simp only [Bool.or_eq_true, Bool.not_eq_true, decide_eq_true_eq, not_or] at hcond
        have hlt : t < m := by omega
        have := ih (t + 1)
        have hsub : m - (t + 1) + 1 = m - t := by omega
        simp only []
        omega

theorem performAux_exhaust (cmd : Str) (raw : Bool) (m : Nat) :
    ∀ (k t : Nat) (script : List AttemptOutcome), t + k = m →
      k + 1 ≤ script.length → (∀ o ∈ script, o.isRecoverable = true) →
      ((performAux cmd raw m t script).2.2).isClient = true ∧
        (performAux cmd raw m t script).2.1 = k + 1 := by
  intro k
  induction k with
  | zero =>
    intro t script ht hlen hrec
    cases script with
    | nil => simp at hlen
    | cons o rest =>
      have ho := hrec o (by simp)
      cases o with
      | gaierror e => simp [AttemptOutcome.isRecoverable] at ho
      | timeoutexc e => simp [AttemptOutcome.isRecoverable] at ho
      | otherexc e => simp [AttemptOutcome.isRecoverable] at ho
      | recv d => simp [AttemptOutcome.isRecoverable] at ho
      | sockerror eno e =>
        simp only [AttemptOutcome.isRecoverable] at ho
        simp only [performAux]
        have hcond : (!(recoverableErrnos.contains eno) || decide (m ≤ t)) = true := by
          simp
          omega
        rw [if_pos hcond]
        exact ⟨rfl, rfl⟩
  | succ k ih =>
    intro t script ht hlen hrec
    cases script with
    | nil => simp at hlen
    | cons o rest =>
      have ho := hrec o (by simp)
      cases o with
      | gaierror e => simp [AttemptOutcome.isRecoverable] at ho
      | timeoutexc e => simp [AttemptOutcome.isRecoverable] at ho
      | otherexc e => simp [AttemptOutcome.isRecoverable] at ho
      | recv d => simp [AttemptOutcome.isRecoverable] at ho
      | sockerror eno e =>
        simp only [AttemptOutcome.isRecoverable] at ho
        simp only [performAux]
        have hcond2 : ¬ ((!(recoverableErrnos.contains eno) || decide (m ≤ t)) = true) := by
          simp only [Bool.or_eq_true, Bool.not_eq_true', decide_eq_true_eq, not_or]
          exact ⟨by simpa using ho, by omega⟩
        rw [if_neg hcond2]
        have hlen2 : k + 1 ≤ rest.length := by
          simp only [List.length_cons] at hlen
          omega
        have hrest := ih (t + 1) rest (by omega) hlen2
          (fun o ho' => hrec o (by simp [ho']))
        refine ⟨hrest.1, ?_⟩
        simp [hrest.2]

/-! ## The claims -/

/-- Claim C1 (code bug): the claim says that on the success path of
`perform` the connection is released back to its pool before the
`Response` is returned.  The code does not: line 240 of `client.py` is
`return get_response(cmd, conn, raw_symbols)` and no `conn.release()`
(nor `conn.close()`) is reached on that path — the event trace of a
successful exchange is empty.  `conn.release()` runs only in the
`gaierror`/`timeout`/`BaseException` handlers. -/
theorem C1_success_path_never_releases (cmd data : Str) (raw : Bool) (m : Nat)
    (hok : exceptOk (get_response cmd data raw) = true) :
    (perform cmd raw m [.recv data]).1 = [] ∧
      ((perform cmd raw m [.recv data]).2.2).isSuccess = true := by
  cases hg : get_response cmd data raw with
  | error e => rw [hg] at hok; simp [exceptOk] at hok
  | ok r => constructor <;> simp [perform, performAux, hg, PerformResult.isSuccess]

/-- Witness for C1: a concrete successful CHECK exchange returns the
parsed response with an empty connection-event trace. -/
theorem C1_success_path_never_releases_witness :
    exceptOk (get_response "CHECK".toList "SPAMD/1.5 0 EX_OK\r\n\r\n".toList false) = true ∧
      (perform "CHECK".toList false 3
          [.recv "SPAMD/1.5 0 EX_OK\r\n\r\n".toList]).1 = [] ∧
      ((perform "CHECK".toList false 3
          [.recv "SPAMD/1.5 0 EX_OK\r\n\r\n".toList]).2.2).isSuccess = true :=
  ⟨by decide,
   (C1_success_path_never_releases "CHECK".toList
      "SPAMD/1.5 0 EX_OK\r\n\r\n".toList false 3 (by decide)).1,
   (C1_success_path_never_releases "CHECK".toList
      "SPAMD/1.5 0 EX_OK\r\n\r\n".toList false 3 (by decide)).2⟩

/-- Counterexample to claim C2: with `max_tries = 3`, three consecutive
recoverable transport errors do *not* make `perform` fail with
`SpamCError` — `tries` starts at `0` and the loop retries while
`tries < max_tries`, so a fourth connection attempt is made (here it
succeeds), and in total more than `max_tries` attempts occur. -/
theorem C2_counterexample :
    (([.sockerror 11 [], .sockerror 11 [], .sockerror 11 []] :
        List AttemptOutcome).all AttemptOutcome.isRecoverable) = true ∧
      ((perform "PING".toList false 3
          [.sockerror 11 [], .sockerror 11 [], .sockerror 11 [],
            .recv "SPAMD/1.5 0 PONG\r\n".toList]).2.2).isClient = false ∧
      ((perform "PING".toList false 3
          [.sockerror 11 [], .sockerror 11 [], .sockerror 11 [],
            .recv "SPAMD/1.5 0 PONG\r\n".toList]).2.2).isSuccess = true ∧
      (perform "PING".toList false 3
          [.sockerror 11 [], .sockerror 11 [], .sockerror 11 [],
            .recv "SPAMD/1.5 0 PONG\r\n".toList]).2.1 = 4 := by
  refine ⟨by decide, by decide, by decide, by decide⟩

/-- Claim C2 (amended): with max attempts `m`, `perform` fails with
`SpamCError` after `m + 1` consecutive recoverable transport errors
(the retry counter starts at 0 and is compared with `<`), consuming
exactly `m + 1` connection attempts — for the default `max_tries = 3`,
after 4 consecutive recoverable errors. -/
theorem C2_retry_exhaustion (cmd : Str) (raw : Bool) (m : Nat)
    (script : List AttemptOutcome)
    (hrec : ∀ o ∈ script, o.isRecoverable = true)
    (hlen : m + 1 ≤ script.length) :
    ((perform cmd raw m script).2.2).isClient = true ∧
      (perform cmd raw m script).2.1 = m + 1 := by
  have h := performAux_exhaust cmd raw m m 0 script (by omega) hlen hrec
  exact ⟨h.1, h.2⟩

/-- Witness for the amended C2: four consecutive recoverable errors
(`EAGAIN`, `EPIPE`, `EBADF`, `ECONNRESET`) with `max_tries = 3` produce
`SpamCError` after exactly 4 attempts. -/
theorem C2_retry_exhaustion_witness :
    (∀ o ∈ ([.sockerror 11 [], .sockerror 32 [], .sockerror 9 [],
        .sockerror 104 []] : List AttemptOutcome), o.isRecoverable = true) ∧
      3 + 1 ≤ ([.sockerror 11 [], .sockerror 32 [], .sockerror 9 [],
        .sockerror 104 []] : List AttemptOutcome).length ∧
      ((perform "PING".toList false 3
          [.sockerror 11 [], .sockerror 32 [], .sockerror 9 [],
            .sockerror 104 []]).2.2).isClient = true ∧
      (perform "PING".toList false 3
          [.sockerror 11 [], .sockerror 32 [], .sockerror 9 [],
            .sockerror 104 []]).2.1 = 3 + 1 :=
  ⟨by decide, by decide,
   (C2_retry_exhaustion "PING".toList false 3 _ (by decide) (by decide)).1,
   (C2_retry_exhaustion "PING".toList false 3 _ (by decide) (by decide)).2⟩

/-- Claim C2, attempt bound part: within one call, `perform` never
consumes more than `max_tries + 1` connection attempts, whatever the
attempt outcomes are. -/
theorem C2_attempts_bound (cmd : Str) (raw : Bool) (m : Nat)
    (script : List AttemptOutcome) :
    (perform cmd raw m script).2.1 ≤ m + 1 := by
  have := performAux_attempts_le cmd raw m script 0
  simpa [perform] using this

/-- Claim C3 (confirmed): the declared body length is the payload
length plus 2 for an in-memory byte sequence (the empty-payload branch
`msg_length = '2'` coincides with `0 + 2`), the determined size plus 2
for a `read`-only streamable source (`msg.seek(0, 2); msg.tell() + 2`),
and the source's current stream length (`os.fstat(...).st_size`, no
`+ 2`) for a `read`+`fileno` source. -/
theorem C3_body_length :
    (∀ p : Str, msg_length (.mem p) = p.length + 2) ∧
      (∀ n : Nat, msg_length (.readStream n) = n + 2) ∧
      (∀ n : Nat, msg_length (.fileStream n) = n) := by
  refine ⟨?_, fun n => rfl, fun n => rfl⟩
  intro p
  cases p with
  | nil => rfl
  | cons c cs => rfl

/-- Claim C4 (code bug): with compression enabled and a nonempty
in-memory body, the `Content-length` header is computed *before*
compression (lines 211–221 precede line 225 of `client.py`), so it
always declares `len(msg) + 2` while the bytes actually transmitted are
`compress(msg + CRLF)` — whenever the compressed length differs from
`len(msg) + 2` the declared length is not the transmitted length,
contrary to the specification's MUST. -/
theorem C4_content_length_ignores_compression (cfg : ClientCfg)
    (compressFn : Str → Str) (cmd : Str) (extra : List (Str × Str)) (msg : Str)
    (hg : cfg.gzip = true) (hm : msg ≠ [])
    (hc : (compressFn (msg ++ crlf)).length ≠ msg.length + 2) :
    (headerLines cfg cmd (natToStr (msg_length (.mem msg))) extra)[1]? =
        some ("Content-length: ".toList ++ natToStr (msg.length + 2)) ∧
      (inMemoryBody cfg compressFn msg).length = (compressFn (msg ++ crlf)).length ∧
      msg_length (.mem msg) ≠ (inMemoryBody cfg compressFn msg).length := by
  have hml : msg_length (.mem msg) = msg.length + 2 := by
    cases msg with
    | nil => exact absurd rfl hm
    | cons c cs => rfl
  have hcond : (cfg.gzip && !msg.isEmpty) = true := by
    rw [hg]
    cases msg with
    | nil => exact absurd rfl hm
    | cons c cs => rfl
  have hbody : inMemoryBody cfg compressFn msg = compressFn (msg ++ crlf) := by
    unfold inMemoryBody
    rw [if_pos hcond]
  refine ⟨?_, by rw [hbody], ?_⟩
  · simp [headerLines, hml]
  · rw [hml, hbody]
    exact fun h => hc h.symm

/-- Witness for C4: with gzip on, message `"a"` and a compressor that
returns the empty sequence, the declared length 3 differs from the 0
bytes transmitted. -/
theorem C4_content_length_ignores_compression_witness :
    ({ user := none, gzip := true, compress_level := 6 } : ClientCfg).gzip = true ∧
      (['a'] : Str) ≠ [] ∧
      ((fun _ => ([] : Str)) ((['a'] : Str) ++ crlf)).length ≠ (['a'] : Str).length + 2 ∧
      ((headerLines { user := none, gzip := true, compress_level := 6 } "CHECK".toList
          (natToStr (msg_length (.mem ['a']))) [])[1]? =
        some ("Content-length: ".toList ++ natToStr ((['a'] : Str).length + 2)) ∧
      (inMemoryBody { user := none, gzip := true, compress_level := 6 }
          (fun _ => ([] : Str)) ['a']).length =
        ((fun _ => ([] : Str)) ((['a'] : Str) ++ crlf)).length ∧
      msg_length (.mem ['a']) ≠
        (inMemoryBody { user := none, gzip := true, compress_level := 6 }
          (fun _ => ([] : Str)) ['a']).length) :=
  ⟨rfl, by decide, by decide,
   C4_content_length_ignores_compression _ _ "CHECK".toList [] ['a'] rfl (by decide) (by decide)⟩

/-- Claim C5 (confirmed; the status-line pattern is modelled from the
spec): parsing fails — `get_response` returns the `SpamCResponseError`
value instead of a response — exactly when the first CRLF-separated
line does not match the status-line grammar, and no `RespDict` is
produced in that case (the `Except` carries only the error); when the
first line matches, the returned response has the captured integer in
`code` (and the captured text in `message`, a string by type). -/
theorem C5_parse_atomic (cmd data : Str) (raw : Bool) :
    (exceptOk (get_response cmd data raw) = false ↔
        matchResponseLine ((splitCRLF data).headD []) = none) ∧
      ∀ c m, matchResponseLine ((splitCRLF data).headD []) = some (c, m) →
        ∃ r, get_response cmd data raw = .ok r ∧ r.code = c := by
  refine ⟨get_response_error_iff cmd data raw, ?_⟩
  intro c m h
  obtain ⟨r, hr, hc, _⟩ := get_response_fields cmd data raw c m h
  exact ⟨r, hr, hc⟩

/-- Witness for C5: an unrecognizable first line fails, and a matching
status line yields a response with the captured code. -/
theorem C5_parse_atomic_witness :
    exceptOk (get_response "CHECK".toList "garbage".toList false) = false ∧
      ∃ r, get_response "CHECK".toList "SPAMD/1.5 0 EX_OK\r\n\r\n".toList false = .ok r ∧
        r.code = 0 :=
  ⟨(C5_parse_atomic "CHECK".toList "garbage".toList false).1.mpr (by decide),
   (C5_parse_atomic "CHECK".toList "SPAMD/1.5 0 EX_OK\r\n\r\n".toList false).2 0
     "EX_OK".toList (by decide)⟩

/-- Claim C6 (confirmed; the spam-status pattern is modelled from the
spec): in any successfully parsed response, `isspam` is true exactly
when the token captured by the *last* spam-status line is `True` or
`Yes` (any other captured token gives false), and `score`/`basescore`
hold that line's captured numeric values — later matches overwrite
earlier ones. -/
theorem C6_spam_status (cmd data : Str) (raw : Bool) (tok sc bs : Str)
    (hok : exceptOk (get_response cmd data raw) = true)
    (hlast : lastSpam ((splitCRLF data).drop 1) = some (tok, sc, bs)) :
    respField (fun r => (r.isspam, r.score, r.basescore)) (get_response cmd data raw) =
      some ((tok = "True".toList || tok = "Yes".toList : Bool), sc, bs) := by
  obtain ⟨c, m, hcm⟩ := get_response_ok_match cmd data raw hok
  obtain ⟨r, hr, _, hspam, _⟩ := get_response_fields cmd data raw c m hcm
  rw [hlast] at hspam
  rw [hr]
  simpa [respField] using hspam

/-- Witness for C6: the specification's own scenario —
`"Spam: True ; 8.0 / 5.0"` gives `isspam = true`, `score = "8.0"`,
`basescore = "5.0"`. -/
theorem C6_spam_status_witness :
    exceptOk (get_response "CHECK".toList
        "SPAMD/1.5 0 EX_OK\r\nSpam: True ; 8.0 / 5.0\r\n\r\n".toList false) = true ∧
      lastSpam ((splitCRLF
          "SPAMD/1.5 0 EX_OK\r\nSpam: True ; 8.0 / 5.0\r\n\r\n".toList).drop 1) =
        some ("True".toList, "8.0".toList, "5.0".toList) ∧
      respField (fun r => (r.isspam, r.score, r.basescore))
          (get_response "CHECK".toList
            "SPAMD/1.5 0 EX_OK\r\nSpam: True ; 8.0 / 5.0\r\n\r\n".toList false) =
        some (("True".toList = "True".toList || "True".toList = "Yes".toList : Bool),
          "8.0".toList, "5.0".toList) :=
  ⟨by decide, by decide,
   C6_spam_status "CHECK".toList
     "SPAMD/1.5 0 EX_OK\r\nSpam: True ; 8.0 / 5.0\r\n\r\n".toList false
     "True".toList "8.0".toList "5.0".toList (by decide) (by decide)⟩

/-- Counterexample to claim C7: for the SYMBOLS command, a line whose
rule-report pattern yields captures does *not* contribute to `report`
when the symbol scan also found tokens, because the nonempty
`PART_RE.findall` result occupies the `match` variable of line 99 and
suppresses the rule branch — yet SYMBOLS is a command other than
PROCESS, so the claim as stated predicts the line's entries in the
final report. -/
theorem C7_counterexample :
    ruleFindall "1.5 TESTRULE some description".toList ≠ [] ∧
      respField (fun r => r.report)
        (get_response "SYMBOLS".toList
          "SPAMD/1.5 0 EX_OK\r\n1.5 TESTRULE some description\r\n".toList false) =
        some [] := by
  constructor
  · decide
  · decide

/-- Claim C7 (amended): a line contributes to `report` exactly when it
reaches the rule branch with captures (`ruleFires`: not blank, no
spam-status match, for SYMBOLS no symbol tokens found, command not
PROCESS, captures nonempty); each such line *replaces* the accumulated
report with one entry per capture, so the final report holds exactly
the entries of the last such line (empty when there is none). -/
theorem C7_last_rule_wins (cmd data : Str) (raw : Bool)
    (hok : exceptOk (get_response cmd data raw) = true) :
    respField (fun r => r.report) (get_response cmd data raw) =
        some (match lastRule cmd ((splitCRLF data).drop 1) with
              | some es => es
              | none => []) ∧
      ∀ acc l, ((stepLine cmd acc l).1).report =
        if ruleFires cmd l then (ruleFindall l).map mkEntry else acc.1.report := by
  refine ⟨?_, fun acc l => stepLine_report cmd acc l⟩
  obtain ⟨c, m, hcm⟩ := get_response_ok_match cmd data raw hok
  obtain ⟨r, hr, _, _, hrep, _⟩ := get_response_fields cmd data raw c m hcm
  rw [hr]
  simpa [respField] using hrep

/-- Witness for the amended C7: a REPORT response with two rule lines
keeps only the second line's entry. -/
theorem C7_last_rule_wins_witness :
    exceptOk (get_response "REPORT".toList
        "SPAMD/1.5 0 EX_OK\r\n-1.5 RULE_A desc one\r\n2.0 RULE_B other desc\r\n".toList
        false) = true ∧
      respField (fun r => r.report)
          (get_response "REPORT".toList
            "SPAMD/1.5 0 EX_OK\r\n-1.5 RULE_A desc one\r\n2.0 RULE_B other desc\r\n".toList
            false) =
        some (match lastRule "REPORT".toList
              ((splitCRLF
                "SPAMD/1.5 0 EX_OK\r\n-1.5 RULE_A desc one\r\n2.0 RULE_B other desc\r\n".toList).drop
                1) with
              | some es => es
              | none => []) :=
  ⟨by decide,
   (C7_last_rule_wins "REPORT".toList
     "SPAMD/1.5 0 EX_OK\r\n-1.5 RULE_A desc one\r\n2.0 RULE_B other desc\r\n".toList
     false (by decide)).1⟩

/-- Counterexample to claim C8: `didset`/`didremove` are put into the
response dict only when `cmd == 'TELL'` (lines 72–74 of `client.py`).
For any other command — here a successfully parsed CHECK — the returned
response does *not* contain them at all (modelled as `none`), rather
than containing them with default value false. -/
theorem C8_counterexample :
    respField (fun r => (r.didset, r.didremove))
        (get_response "CHECK".toList "SPAMD/1.5 0 EX_OK".toList false) =
      some (none, none) ∧
      ¬ respField (fun r => (r.didset, r.didremove))
          (get_response "CHECK".toList "SPAMD/1.5 0 EX_OK".toList false) =
        some (some false, some false) := by
  constructor
  · decide
  · decide

/-- Claim C8 (amended): only TELL responses contain `did_set` and
`did_remove` initialized to false; for other commands those keys are
absent by default.  For *any* command, a line beginning with `DidSet:`
(resp. `DidRemove:`) sets the respective field to true. -/
theorem C8_didset_flags (cmd data : Str) (raw : Bool)
    (hok : exceptOk (get_response cmd data raw) = true) :
    respField (fun r => (r.didset, r.didremove)) (get_response cmd data raw) =
      some
        ((if anyPrefix "DidSet:".toList ((splitCRLF data).drop 1) then some true
           else if cmd = "TELL".toList then some false else none),
          (if anyPrefix "DidRemove:".toList ((splitCRLF data).drop 1) then some true
           else if cmd = "TELL".toList then some false else none)) := by
  obtain ⟨c, m, hcm⟩ := get_response_ok_match cmd data raw hok
  obtain ⟨r, hr, _, _, _, hds, hdr⟩ := get_response_fields cmd data raw c m hcm
  rw [hr]
  simp [respField, hds, hdr]

/-- Witness for the amended C8: a TELL response with a `DidSet: local`
line has `didset = some true` and `didremove = some false`. -/
theorem C8_didset_flags_witness :
    exceptOk (get_response "TELL".toList
        "SPAMD/1.5 0 EX_OK\r\nDidSet: local\r\n".toList false) = true ∧
      respField (fun r => (r.didset, r.didremove))
          (get_response "TELL".toList
            "SPAMD/1.5 0 EX_OK\r\nDidSet: local\r\n".toList false) =
        some
          ((if anyPrefix "DidSet:".toList
              ((splitCRLF "SPAMD/1.5 0 EX_OK\r\nDidSet: local\r\n".toList).drop 1) then
              some true
            else if "TELL".toList = "TELL".toList then some false else none),
            (if anyPrefix "DidRemove:".toList
                ((splitCRLF "SPAMD/1.5 0 EX_OK\r\nDidSet: local\r\n".toList).drop 1) then
              some true
            else if "TELL".toList = "TELL".toList then some false else none)) :=
  ⟨by decide,
   C8_didset_flags "TELL".toList "SPAMD/1.5 0 EX_OK\r\nDidSet: local\r\n".toList false
     (by decide)⟩

/-- Claim C9 (confirmed): `tell(msg, 'forget')` deletes both
`Message-class` and `Set` from the initial header mapping and adds
`Remove: local`, so the extra headers passed to the TELL exchange are
exactly `{Remove: local}` — whatever the (unused) `learnas` argument
is. -/
theorem C9_forget_headers (learnas : Str) :
    tell_headers "forget".toList learnas = .ok [("Remove".toList, "local".toList)] := rfl

/-- Claim C10 (confirmed): `tell(msg, 'revoke')` — and hence
`revoke(msg)` — sends `Message-class: ham`, the `Set: local` entry left
over from the initial mapping (the revoke branch never removes it), and
`Remove: remote`; in particular `Set: local` is included. -/
theorem C10_revoke_includes_set_local :
    revoke_headers = .ok [("Message-class".toList, "ham".toList),
        ("Set".toList, "local".toList), ("Remove".toList, "remote".toList)] ∧
      ∀ learnas : Str, tell_headers "revoke".toList learnas =
        .ok [("Message-class".toList, "ham".toList), ("Set".toList, "local".toList),
          ("Remove".toList, "remote".toList)] :=
  ⟨rfl, fun _ => rfl⟩
